import Mathlib

/-!
Verification of the OS abstraction layer in src/lib/OpenMRN/src/os/os.c
(monotonic clock, two-region bump heap, once-initializer, thread creation
defaults, idle-hook task registry sweep, bootstrap entry point).
Each definition is a shallow embedding of the corresponding C function;
the static/global variables of the C code become explicit state arguments.
-/

/-! ### Monotonic clock: os_get_time_monotonic (os.c lines 596-665)

The platform-specific part of the function produces a raw nanosecond
reading `time` (a C long long, modelled as Int).  The portable tail
(lines 652-664) compares it against the static variable `last` and
returns the updated `last`.  We embed that tail: one call maps the
stored `last` and the raw source reading to the new stored-and-returned
value. -/

/-- One call of os_get_time_monotonic: given the stored `last` value and the
raw converted source reading `time`, compute the value that is both stored
back into `last` and returned (lines 655-664 of os.c). -/
def os_get_time_monotonic (last time : Int) : Int :=
  if time ≤ last then last + 1 else time

/-- A whole sequence of calls: starting from stored value `last`, feed the
list of raw source readings one call at a time and collect the returned
values.  The static `last` starts at 0 at process start (line 598). -/
def monoRun (last : Int) : List Int → List Int
  | [] => []
  | t :: ts =>
      let r := os_get_time_monotonic last t
      r :: monoRun r ts

/-! ### Heap allocator: _sbrk_r (os.c lines 765-808)

Link-time symbols __cs3_heap_start/__cs3_heap_end bound the primary
region and __heap2_start/__heap2_end the optional secondary region
(absent when the two symbols alias, i.e. are the same address).  The
globals heap_end and heap2_end are the bump pointers, both 0 before the
first call and lazily initialised to the region starts.  Addresses are
modelled as Int, the increment as Int (C ptrdiff_t). -/

/-- Link-time heap region boundary symbols. -/
structure HeapLayout where
  cs3_heap_start : Int
  cs3_heap_end : Int
  heap2_start : Int
  heap2_end_sym : Int
deriving DecidableEq

/-- The mutable globals of _sbrk_r: the two bump pointers (0 = not yet
initialised). -/
structure HeapState where
  heap_end : Int
  heap2_end : Int
deriving DecidableEq

/-- Outcome of one _sbrk_r call: a pointer served from the primary region,
a pointer served from the secondary region, or the fatal
diewith(BLINK_DIE_OUTOFMEM) path. -/
inductive SbrkResult where
  | primary (p : Int)
  | secondary (p : Int)
  | outOfMem
deriving DecidableEq

/-- The primary bump pointer as seen by the body of _sbrk_r after the
lazy initialisation of lines 780-783: a zero heap_end is replaced by the
address of __cs3_heap_start. -/
def effective_heap_end (L : HeapLayout) (st : HeapState) : Int :=
  if st.heap_end = 0 then L.cs3_heap_start else st.heap_end

/-- The secondary bump pointer after the lazy initialisation of lines
784-787: a zero heap2_end is replaced by the address of __heap2_start. -/
def effective_heap2_end (L : HeapLayout) (st : HeapState) : Int :=
  if st.heap2_end = 0 then L.heap2_start else st.heap2_end

/-- One call of _sbrk_r (os.c lines 774-808): lazily initialise the bump
pointers, try a bump allocation in the primary region, fall back to the
secondary region when present, otherwise take the fatal path. -/
def sbrk_r (L : HeapLayout) (st : HeapState) (incr : Int) :
    SbrkResult × HeapState :=
  let heap_end := effective_heap_end L st
  let heap2_end := effective_heap2_end L st
  let prev_heap_end := heap_end
  if heap_end + incr > L.cs3_heap_end then
    if L.heap2_start ≠ L.heap2_end_sym then
      let prev_heap2_end := heap2_end
      if heap2_end + incr ≤ L.heap2_end_sym then
        (SbrkResult.secondary prev_heap2_end, ⟨heap_end, heap2_end + incr⟩)
      else
        (SbrkResult.outOfMem, ⟨heap_end, heap2_end⟩)
    else
      (SbrkResult.outOfMem, ⟨heap_end, heap2_end⟩)
  else
    (SbrkResult.primary prev_heap_end, ⟨heap_end + incr, heap2_end⟩)

/-! ### Task registry and health monitor (os.c lines 135-146, 317-340,
833-864)

A TaskList node holds the task handle (none models a NULL xTaskHandle),
the task name and the unused stack byte count.  os_thread_start marks the
exiting task's entry reclaimable by writing a NULL handle and the
DELETED_TASK_MAGIC sentinel into unused; vApplicationIdleHook first
unlinks and frees every node carrying the sentinel and then refreshes
unused for every node with a live handle from
uxTaskGetStackHighWaterMark times the port stack word size. -/

/-- Sentinel written into a task's unused field to signal the idle task
to reclaim the node (os.c line 99). -/
def DELETED_TASK_MAGIC : Nat := 0xb5c5d5e5

/-- One node of the intrusive task registry list. -/
structure TaskListEntry where
  task : Option Nat
  name : String
  unused : Nat
deriving DecidableEq

/-- The exit bookkeeping of os_thread_start (os.c lines 324-335): walk
the list to the first node whose handle matches the exiting task and mark
it with a NULL handle and the reclaim sentinel. -/
def os_thread_start_exit (h : Nat) : List TaskListEntry → List TaskListEntry
  | [] => []
  | e :: rest =>
      if e.task = some h then
        { e with task := none, unused := DELETED_TASK_MAGIC } :: rest
      else e :: os_thread_start_exit h rest

/-- First pass of vApplicationIdleHook (os.c lines 840-852): unlink and
free every node whose unused field carries the reclaim sentinel. -/
def idle_cleanup : List TaskListEntry → List TaskListEntry
  | [] => []
  | e :: rest =>
      if e.unused = DELETED_TASK_MAGIC then idle_cleanup rest
      else e :: idle_cleanup rest

/-- The per-node effect of the second vApplicationIdleHook pass (os.c
lines 856-859): a node with a live handle gets its unused field refreshed
from the stack high-water mark, a node with a NULL handle is left
alone. -/
def idle_update_entry (hwm : Nat → Nat) (stackTypeSize : Nat)
    (e : TaskListEntry) : TaskListEntry :=
  match e.task with
  | some t => { e with unused := hwm t * stackTypeSize }
  | none => e

/-- Second pass of vApplicationIdleHook (os.c lines 854-862): for every
node with a live handle, record the current stack high-water mark (in
stack words, scaled by the port stack word size) into unused. -/
def idle_update (hwm : Nat → Nat) (stackTypeSize : Nat) :
    List TaskListEntry → List TaskListEntry
  | [] => []
  | e :: rest =>
      idle_update_entry hwm stackTypeSize e :: idle_update hwm stackTypeSize rest

/-- One health-monitor cycle (os.c lines 835-864): cleanup pass followed
by the unused-stack refresh pass. -/
def vApplicationIdleHook (hwm : Nat → Nat) (stackTypeSize : Nat)
    (l : List TaskListEntry) : List TaskListEntry :=
  idle_update hwm stackTypeSize (idle_cleanup l)

/-! ### Bootstrap entry point: main, non-scheduled branch (os.c lines
1007-1014)

On targets without FreeRTOS, main optionally performs the WIN32 socket
runtime setup and then directly returns appl_main(argc, argv).  The
observable behaviour is the ordered event list plus the exit status;
appl_main is an arbitrary function supplied by the application. -/

/-- Observable steps of the non-scheduled main. -/
inductive MainEvent where
  | socketSetup
  | callAppl (argc : Int) (argv : List String)
deriving DecidableEq

/-- The non-scheduled branch of main (os.c lines 1007-1014): the WIN32
socket setup when building for Windows, then the call into appl_main
with main's own argc and argv, whose result is the process exit
status. -/
def main_non_scheduled (win32 : Bool) (appl_main : Int → List String → Int)
    (argc : Int) (argv : List String) : List MainEvent × Int :=
  ((if win32 then [MainEvent.socketSetup] else []) ++
      [MainEvent.callAppl argc argv],
    appl_main argc argv)

/-! ### Once-initializer: os_thread_once (os.c lines 182-218 and 667-682)

The guard is the tri-state os_thread_once_t.  One sequential call is
modelled as a function from (guard state, counter) to an optional
(return value, new guard state, new counter); the routine is fixed, per
the claim, to one that increments the counter.  A result of none means
the call does not return normally: in the scheduler-running branch a
caller that observes INPROGRESS sits in the poll-wait loop (which no
other actor can release within this call), and in the EMSCRIPTEN
implementation an INPROGRESS observation executes the fatal DIE path. -/

/-- Guard states of os_thread_once_t. -/
inductive OnceState where
  | never
  | inprogress
  | done
deriving DecidableEq

/-- One call of the FreeRTOS os_thread_once with the scheduler running
(lines 184-205): under the mutex, a NEVER guard is moved to INPROGRESS,
the routine runs unlocked, the guard is moved to DONE and 0 is returned;
a DONE guard returns 0 at once; an INPROGRESS guard puts the caller into
the sleep-poll loop, which cannot complete within this sequential call
(modelled as none). -/
def os_thread_once_sched (st : OnceState) (cnt : Nat) :
    Option (Nat × OnceState × Nat) :=
  match st with
  | OnceState.never => some (0, OnceState.done, cnt + 1)
  | OnceState.inprogress => none
  | OnceState.done => some (0, OnceState.done, cnt)

/-- One call of the FreeRTOS os_thread_once before the scheduler is
started (lines 206-215): a NEVER guard runs the routine through the
NEVER to INPROGRESS to DONE transitions; any other state falls through
the single if statement and the call returns 0 unchanged. -/
def os_thread_once_nosched (st : OnceState) (cnt : Nat) :
    Option (Nat × OnceState × Nat) :=
  match st with
  | OnceState.never => some (0, OnceState.done, cnt + 1)
  | s => some (0, s, cnt)

/-- One call of the EMSCRIPTEN os_thread_once (lines 667-682): a NEVER
guard runs the routine; an INPROGRESS guard executes
DIE of the message Recursive call to os_thread_once (modelled as none);
a DONE guard returns 0. -/
def os_thread_once_emcc (st : OnceState) (cnt : Nat) :
    Option (Nat × OnceState × Nat) :=
  match st with
  | OnceState.never => some (0, OnceState.done, cnt + 1)
  | OnceState.inprogress => none
  | OnceState.done => some (0, OnceState.done, cnt)

/-- Run k successive complete calls of a given os_thread_once variant,
collecting the returned values; none if any call fails to return. -/
def onceCalls (step : OnceState → Nat → Option (Nat × OnceState × Nat)) :
    Nat → OnceState → Nat → Option (List Nat × OnceState × Nat)
  | 0, st, cnt => some ([], st, cnt)
  | k + 1, st, cnt =>
      match step st cnt with
      | none => none
      | some (r, st', cnt') =>
          match onceCalls step k st' cnt' with
          | none => none
          | some (rs, stf, cntf) => some (r :: rs, stf, cntf)


/-! ### Thread creation defaults: os_thread_create (os.c lines 414-451)

The FreeRTOS branch normalises the requested priority and stack size
(lines 439-451).  configMAX_PRIORITIES is a positive compile-time
configuration constant, modelled as a Nat; the requested priority is a C
int, modelled as Int. -/

/-- Priority normalisation in os_thread_create (lines 439-446): a 0
request becomes configMAX_PRIORITIES / 2; a request at or above
configMAX_PRIORITIES becomes configMAX_PRIORITIES - 1; any other request
is left as is. -/
def os_thread_create_priority (configMAX_PRIORITIES : Nat) (priority : Int) :
    Int :=
  if priority = 0 then ((configMAX_PRIORITIES / 2 : Nat) : Int)
  else if priority ≥ (configMAX_PRIORITIES : Int) then
    (configMAX_PRIORITIES : Int) - 1
  else priority

/-- Stack size defaulting in os_thread_create (lines 448-451): a 0
request becomes 2048 bytes. -/
def os_thread_create_stack_size (stack_size : Nat) : Nat :=
  if stack_size = 0 then 2048 else stack_size


/-! ### Auto-generated thread names (os.c lines 418-429)

When name is NULL, the 10-byte buffer receives the 7 characters of
the word thread and a dot, then byte 8 is set to the character value
of 48 plus count mod 10, byte 7 to 48 plus count divided by 10, and byte
9 terminates the string.  The chars wrap modulo 256 (C char assignment
truncates the int expression).  The static counter increments after each
unnamed spawn.  We model the resulting 9 visible bytes. -/

/-- The 9 bytes of the auto-generated name produced for the given value
of the static counter (os.c lines 423-427): the bytes of the word thread,
a dot, then the two computed digit bytes. -/
def auto_name_bytes (count : Nat) : List Nat :=
  [116, 104, 114, 101, 97, 100, 46,
    (48 + count / 10) % 256, (48 + count % 10) % 256]


/-! Helper lemmas about the clock. -/

theorem os_get_time_monotonic_gt (last time : Int) :
    last < os_get_time_monotonic last time := by
  unfold os_get_time_monotonic
  split <;> omega

theorem monoRun_chain (ts : List Int) (last : Int) :
    List.Chain (fun a b => a < b) last (monoRun last ts) := by
  induction ts generalizing last with
  | nil => exact List.Chain.nil
  | cons t ts ih =>
      exact List.Chain.cons (os_get_time_monotonic_gt last t) (ih _)

theorem monoRun_pos (ts : List Int) (last : Int) (h : 0 ≤ last) :
    ∀ x ∈ monoRun last ts, 1 ≤ x := by
  induction ts generalizing last with
  | nil => intro x hx; simp [monoRun] at hx
  | cons t ts ih =>
      intro x hx
      simp only [monoRun, List.mem_cons] at hx
      rcases hx with rfl | hx
      · have := os_get_time_monotonic_gt last t
        omega
      · refine ih (os_get_time_monotonic last t) ?_ x hx
        have := os_get_time_monotonic_gt last t
        omega

/-- C1: across any sequence of calls the returned values are strictly
increasing, the per-call rule is: a source reading not strictly above the
stored last value yields exactly last + 1, a strictly greater reading is
returned as is, and in both cases the returned value becomes the new
stored last value (the next call in the run is fed the previous return). -/
theorem os_get_time_monotonic_strictly_increasing :
    ∀ readings : List Int,
      List.Chain' (fun a b => a < b) (monoRun 0 readings) ∧
      (∀ last time : Int, time ≤ last →
          os_get_time_monotonic last time = last + 1) ∧
      (∀ last time : Int, last < time →
          os_get_time_monotonic last time = time) ∧
      (∀ last time : Int, ∀ ts : List Int,
          monoRun last (time :: ts) =
            os_get_time_monotonic last time ::
              monoRun (os_get_time_monotonic last time) ts) := by
  intro readings
  have hch : List.Chain' (fun a b => a < b) ((0 : Int) :: monoRun 0 readings) :=
    monoRun_chain readings 0
  refine ⟨hch.tail, ?_, ?_, ?_⟩
  · intro last time h
    simp [os_get_time_monotonic, h]
  · intro last time h
    have : ¬ time ≤ last := by omega
    simp [os_get_time_monotonic, this]
  · intro last time ts
    rfl

/-- C1 witness: a concrete stalled source (three equal readings) produces
strictly increasing outputs, and the step rules evaluate as stated. -/
theorem os_get_time_monotonic_strictly_increasing_witness :
    List.Chain' (fun a b => a < b) (monoRun 0 [5, 5, 5]) ∧
      os_get_time_monotonic 5 5 = 6 ∧ os_get_time_monotonic 5 9 = 9 := by
  refine ⟨(os_get_time_monotonic_strictly_increasing [5, 5, 5]).1, ?_, ?_⟩
  · exact (os_get_time_monotonic_strictly_increasing []).2.1 5 5 (by decide)
  · exact (os_get_time_monotonic_strictly_increasing []).2.2.1 5 9 (by decide)

/-- C10: every value ever returned by the clock is at least 1, for any
sequence of raw source readings (including zero and negative readings),
because the stored last value starts at 0 and each return is strictly
greater than the previous stored value. -/
theorem os_get_time_monotonic_always_positive :
    ∀ readings : List Int, ∀ x ∈ monoRun 0 readings, 1 ≤ x := by
  intro readings
  exact monoRun_pos readings 0 (by decide)

/-- C10 witness: a first call whose source reads 0 (and then a negative
reading) still returns values of at least 1. -/
theorem os_get_time_monotonic_always_positive_witness :
    1 ≤ (1 : Int) ∧ 1 ≤ (2 : Int) := by
  constructor
  · exact os_get_time_monotonic_always_positive [0, -5] 1 (by decide)
  · exact os_get_time_monotonic_always_positive [0, -5] 2 (by decide)

theorem sbrk_r_eq_cases (L : HeapLayout) (st : HeapState) (incr : Int) :
    sbrk_r L st incr =
      if L.cs3_heap_end < effective_heap_end L st + incr then
        if L.heap2_start ≠ L.heap2_end_sym then
          if effective_heap2_end L st + incr ≤ L.heap2_end_sym then
            (SbrkResult.secondary (effective_heap2_end L st),
              ⟨effective_heap_end L st, effective_heap2_end L st + incr⟩)
          else
            (SbrkResult.outOfMem,
              ⟨effective_heap_end L st, effective_heap2_end L st⟩)
        else
          (SbrkResult.outOfMem,
            ⟨effective_heap_end L st, effective_heap2_end L st⟩)
      else
        (SbrkResult.primary (effective_heap_end L st),
          ⟨effective_heap_end L st + incr, effective_heap2_end L st⟩) := rfl

/-- C2: a request whose (lazily initialised) primary bump pointer plus
the increment stays within the primary end is served from the primary
region; otherwise, when the secondary region is present (distinct start
and end symbols) and its bump pointer plus the increment stays within its
end, the request is served from the secondary region; and when neither
region can serve it the call takes the fatal out-of-memory path and
yields no pointer. -/
theorem sbrk_r_region_selection (L : HeapLayout) (st : HeapState)
    (incr : Int) :
    (effective_heap_end L st + incr ≤ L.cs3_heap_end →
        sbrk_r L st incr =
          (SbrkResult.primary (effective_heap_end L st),
            ⟨effective_heap_end L st + incr, effective_heap2_end L st⟩)) ∧
    (L.cs3_heap_end < effective_heap_end L st + incr →
        L.heap2_start ≠ L.heap2_end_sym →
        effective_heap2_end L st + incr ≤ L.heap2_end_sym →
        sbrk_r L st incr =
          (SbrkResult.secondary (effective_heap2_end L st),
            ⟨effective_heap_end L st, effective_heap2_end L st + incr⟩)) ∧
    (L.cs3_heap_end < effective_heap_end L st + incr →
        ¬ (L.heap2_start ≠ L.heap2_end_sym ∧
            effective_heap2_end L st + incr ≤ L.heap2_end_sym) →
        (sbrk_r L st incr).1 = SbrkResult.outOfMem) := by
  refine ⟨?_, ?_, ?_⟩
  · intro hfit
    rw [sbrk_r_eq_cases,
      if_neg (by omega :
        ¬ L.cs3_heap_end < effective_heap_end L st + incr)]
  · intro hover hsec hfit2
    rw [sbrk_r_eq_cases, if_pos hover, if_pos hsec, if_pos hfit2]
  · intro hover hno
    by_cases hsec : L.heap2_start ≠ L.heap2_end_sym
    · have hfit2 : ¬ effective_heap2_end L st + incr ≤ L.heap2_end_sym :=
        fun hc => hno ⟨hsec, hc⟩
      rw [sbrk_r_eq_cases, if_pos hover, if_pos hsec, if_neg hfit2]
    · rw [sbrk_r_eq_cases, if_pos hover, if_neg hsec]

/-- C2 witness: a layout with primary [10,20), secondary [100,200); with
heap_end = 18 a 4-byte request overflows the primary and is served from
the secondary; with heap2_end = 198 as well, it is fatal. -/
theorem sbrk_r_region_selection_witness :
    sbrk_r ⟨10, 20, 100, 200⟩ ⟨18, 100⟩ 4 =
      (SbrkResult.secondary 100, ⟨18, 104⟩) ∧
    (sbrk_r ⟨10, 20, 100, 200⟩ ⟨18, 198⟩ 4).1 = SbrkResult.outOfMem ∧
    sbrk_r ⟨10, 20, 100, 200⟩ ⟨12, 100⟩ 4 =
      (SbrkResult.primary 12, ⟨16, 100⟩) := by
  refine ⟨?_, ?_, ?_⟩
  · exact (sbrk_r_region_selection ⟨10, 20, 100, 200⟩ ⟨18, 100⟩ 4).2.1
      (by decide) (by decide) (by decide)
  · exact (sbrk_r_region_selection ⟨10, 20, 100, 200⟩ ⟨18, 198⟩ 4).2.2
      (by decide) (by decide)
  · exact (sbrk_r_region_selection ⟨10, 20, 100, 200⟩ ⟨12, 100⟩ 4).1
      (by decide)

/-- C9 counterexample: on the very first call (both bump pointers still 0)
a request served from the primary region does change heap2_end: the lazy
initialisation at the top of _sbrk_r sets it from 0 to __heap2_start, so
the claim that a primary-served request always leaves heap2_end unchanged
is false at this input. -/
theorem sbrk_r_frame_counterexample :
    (sbrk_r ⟨10, 50, 100, 200⟩ ⟨0, 0⟩ 4).1 = SbrkResult.primary 10 ∧
    ((sbrk_r ⟨10, 50, 100, 200⟩ ⟨0, 0⟩ 4).2).heap2_end = 100 ∧
    (HeapState.mk 0 0).heap2_end = 0 := by
  decide

/-- C9 amended: once both bump pointers are initialised (nonzero), a
request served from the primary region returns the previous primary bump
pointer, advances only the primary pointer by exactly the increment and
leaves the secondary pointer unchanged, and symmetrically for the
secondary region; before initialisation the only extra effect is setting
a zero pointer to its region start. -/
theorem sbrk_r_frame (L : HeapLayout) (st : HeapState) (incr : Int)
    (h1 : st.heap_end ≠ 0) (h2 : st.heap2_end ≠ 0) :
    (∀ p st', sbrk_r L st incr = (SbrkResult.primary p, st') →
        p = st.heap_end ∧ st'.heap_end = st.heap_end + incr ∧
        st'.heap2_end = st.heap2_end) ∧
    (∀ p st', sbrk_r L st incr = (SbrkResult.secondary p, st') →
        p = st.heap2_end ∧ st'.heap2_end = st.heap2_end + incr ∧
        st'.heap_end = st.heap_end) := by
  have e1 : effective_heap_end L st = st.heap_end := if_neg h1
  have e2 : effective_heap2_end L st = st.heap2_end := if_neg h2
  constructor
  · intro p st' h
    rw [sbrk_r_eq_cases, e1, e2] at h
    split at h
    · split at h
      · split at h
        · simp at h
        · simp at h
      · simp at h
    · simp only [Prod.mk.injEq, SbrkResult.primary.injEq] at h
      obtain ⟨rfl, rfl⟩ := h
      exact ⟨rfl, rfl, rfl⟩
  · intro p st' h
    rw [sbrk_r_eq_cases, e1, e2] at h
    split at h
    · split at h
      · split at h
        · simp only [Prod.mk.injEq, SbrkResult.secondary.injEq] at h
          obtain ⟨rfl, rfl⟩ := h
          exact ⟨rfl, rfl, rfl⟩
        · simp at h
      · simp at h
    · simp at h

theorem onceCalls_done
    (step : OnceState → Nat → Option (Nat × OnceState × Nat))
    (hstep : ∀ c, step OnceState.done c = some (0, OnceState.done, c)) :
    ∀ k c, onceCalls step k OnceState.done c =
      some (List.replicate k 0, OnceState.done, c) := by
  intro k
  induction k with
  | zero => intro c; rfl
  | succ k ih =>
      intro c
      simp [onceCalls, hstep, ih, List.replicate]

/-- C3: for every K at least 1, K successive complete calls on a fresh
guard with a counter-incrementing routine all return 0, leave the guard
DONE and run the routine exactly once (counter = 1), in both the
scheduler-running and the scheduler-not-yet-started branches of the
FreeRTOS os_thread_once. -/
theorem os_thread_once_runs_once (k : Nat) (hk : 1 ≤ k) :
    onceCalls os_thread_once_sched k OnceState.never 0 =
      some (List.replicate k 0, OnceState.done, 1) ∧
    onceCalls os_thread_once_nosched k OnceState.never 0 =
      some (List.replicate k 0, OnceState.done, 1) := by
  obtain ⟨j, rfl⟩ : ∃ j, k = j + 1 := ⟨k - 1, by omega⟩
  constructor
  · simp [onceCalls, os_thread_once_sched,
      onceCalls_done os_thread_once_sched (fun c => rfl), List.replicate]
  · simp [onceCalls, os_thread_once_nosched,
      onceCalls_done os_thread_once_nosched (fun c => rfl), List.replicate]

/-- C3 witness: three calls on a fresh guard in each branch. -/
theorem os_thread_once_runs_once_witness :
    onceCalls os_thread_once_sched 3 OnceState.never 0 =
      some ([0, 0, 0], OnceState.done, 1) ∧
    onceCalls os_thread_once_nosched 3 OnceState.never 0 =
      some ([0, 0, 0], OnceState.done, 1) := by
  have h := os_thread_once_runs_once 3 (by decide)
  simpa using h

/-- C7 counterexample: in the FreeRTOS implementation with the scheduler
not yet running, a call on a guard that is already INPROGRESS returns
normally with value 0, leaving the guard INPROGRESS and never running the
routine nor any fatal path, so the claim that every no-scheduler target
treats this as a fatal error is false on this branch. -/
theorem os_thread_once_recursive_counterexample :
    os_thread_once_nosched OnceState.inprogress 0 =
      some (0, OnceState.inprogress, 0) ∧
    os_thread_once_nosched OnceState.inprogress 0 ≠ none := by
  decide

/-- C7 amended: only the EMSCRIPTEN (single-threaded) implementation of
os_thread_once treats a call on an INPROGRESS guard as a fatal logic
error (the DIE path, no normal return); the FreeRTOS implementation
before the scheduler starts instead returns 0 at once, without running
the routine and without halting. -/
theorem os_thread_once_recursive_fatal (cnt : Nat) :
    os_thread_once_emcc OnceState.inprogress cnt = none ∧
    os_thread_once_nosched OnceState.inprogress cnt =
      some (0, OnceState.inprogress, cnt) := by
  constructor <;> rfl

/-- C4 counterexample: with configMAX_PRIORITIES = 5, a requested
priority of -1 is passed through unchanged, landing outside the claimed
range [1, max-1], so the claim that every requested priority is clamped
into [1, max-1] is false. -/
theorem os_thread_create_priority_counterexample :
    os_thread_create_priority 5 (-1) = -1 ∧ ¬ (1 ≤ (-1 : Int)) := by
  decide

/-- C4 amended: a requested priority of 0 becomes the mid-range default
configMAX_PRIORITIES / 2 (which lies in [1, max-1] when max is at least
2), a request at or above configMAX_PRIORITIES is clamped to max-1, any
positive request below max is kept, so every nonnegative request lands in
[1, max-1]; negative requests are passed through unchanged; a stack_size
of 0 becomes the fixed minimum 2048. -/
theorem os_thread_create_defaults (maxP : Nat) (priority : Int)
    (stack_size : Nat) (hmax : 2 ≤ maxP) :
    (priority = 0 →
        os_thread_create_priority maxP priority = ((maxP / 2 : Nat) : Int) ∧
        1 ≤ ((maxP / 2 : Nat) : Int) ∧
        ((maxP / 2 : Nat) : Int) ≤ (maxP : Int) - 1) ∧
    ((maxP : Int) ≤ priority →
        os_thread_create_priority maxP priority = (maxP : Int) - 1) ∧
    (1 ≤ priority → priority ≤ (maxP : Int) - 1 →
        os_thread_create_priority maxP priority = priority) ∧
    (0 ≤ priority →
        1 ≤ os_thread_create_priority maxP priority ∧
        os_thread_create_priority maxP priority ≤ (maxP : Int) - 1) ∧
    (priority < 0 → os_thread_create_priority maxP priority = priority) ∧
    (stack_size = 0 → os_thread_create_stack_size stack_size = 2048) := by
  have hdiv1 : 1 ≤ maxP / 2 := by omega
  have hdiv2 : maxP / 2 ≤ maxP - 1 := by omega
  refine ⟨?_, ?_, ?_, ?_, ?_, ?_⟩
  · intro h
    refine ⟨by simp [os_thread_create_priority, h], ?_, ?_⟩
    · exact_mod_cast hdiv1
    · omega
  · intro h
    have h0 : priority ≠ 0 := by omega
    simp [os_thread_create_priority, h0, h]
  · intro h1 h2
    have h0 : priority ≠ 0 := by omega
    have h3 : ¬ priority ≥ (maxP : Int) := by omega
    simp [os_thread_create_priority, h0, h3]
  · intro h
    unfold os_thread_create_priority
    split
    · constructor
      · exact_mod_cast hdiv1
      · omega
    · split <;> omega
  · intro h
    have h0 : priority ≠ 0 := by omega
    have h3 : ¬ priority ≥ (maxP : Int) := by omega
    simp [os_thread_create_priority, h0, h3]
  · intro h
    simp [os_thread_create_stack_size, h]

/-- C4 witness: the amended defaulting rules evaluated at
configMAX_PRIORITIES = 5, priority requests 0 and 9, stack request 0. -/
theorem os_thread_create_defaults_witness :
    (os_thread_create_priority 5 0 = 2 ∧ (1 : Int) ≤ 2 ∧ (2 : Int) ≤ 5 - 1) ∧
    os_thread_create_priority 5 9 = 5 - 1 ∧
    os_thread_create_stack_size 0 = 2048 := by
  refine ⟨?_, ?_, ?_⟩
  · have h := (os_thread_create_defaults 5 0 0 (by decide)).1 rfl
    simpa using h
  · exact (os_thread_create_defaults 5 9 0 (by decide)).2.1 (by decide)
  · exact (os_thread_create_defaults 5 9 0 (by decide)).2.2.2.2.2 rfl

/-- C5 counterexample: the unnamed spawn with counter value 2560 receives
exactly the same name bytes as the spawn with counter value 0 (the tens
byte 48 + 256 wraps modulo 256 back to the digit zero), so with 2561
prior unnamed spawns still live the generated name is not unique. -/
theorem auto_name_collision_counterexample :
    auto_name_bytes 2560 = auto_name_bytes 0 ∧ (2560 : Nat) ≠ 0 := by
  decide

/-- C5 amended: auto-generated names are pairwise distinct for counter
values that differ by less than 2560 (the encoding of ones digit modulo
10 and tens byte modulo 256 repeats with period 2560); the generator
performs no check against the names of live units. -/
theorem auto_name_unique_below_2560 (c c' : Nat) (hlt : c < c')
    (hgap : c' < c + 2560) : auto_name_bytes c ≠ auto_name_bytes c' := by
  intro h
  simp only [auto_name_bytes, List.cons.injEq, and_true] at h
  omega

/-- C5 witness: two successive unnamed spawns get distinct names. -/
theorem auto_name_unique_below_2560_witness :
    auto_name_bytes 0 ≠ auto_name_bytes 1 :=
  auto_name_unique_below_2560 0 1 (by decide) (by decide)

/-- C9 witness: the amended frame property evaluated on a concrete
initialised state, for one primary-served and one secondary-served call. -/
theorem sbrk_r_frame_witness :
    ((12 : Int) = 12 ∧ (16 : Int) = 12 + 4 ∧ (100 : Int) = 100) ∧
    ((100 : Int) = 100 ∧ (104 : Int) = 100 + 4 ∧ (18 : Int) = 18) := by
  constructor
  · exact (sbrk_r_frame ⟨10, 20, 100, 200⟩ ⟨12, 100⟩ 4 (by decide)
      (by decide)).1 12 ⟨16, 100⟩ (by decide)
  · exact (sbrk_r_frame ⟨10, 20, 100, 200⟩ ⟨18, 100⟩ 4 (by decide)
      (by decide)).2 100 ⟨18, 104⟩ (by decide)

theorem idle_update_entry_none (hwm : Nat → Nat) (stsz : Nat)
    (e : TaskListEntry) (h : e.task = none) :
    idle_update_entry hwm stsz e = e := by
  unfold idle_update_entry
  rw [h]

theorem idle_update_entry_some (hwm : Nat → Nat) (stsz : Nat)
    (e : TaskListEntry) (t : Nat) (h : e.task = some t) :
    idle_update_entry hwm stsz e = { e with unused := hwm t * stsz } := by
  unfold idle_update_entry
  rw [h]

theorem idle_cleanup_eq_filter (l : List TaskListEntry) :
    idle_cleanup l = l.filter (fun e => e.unused != DELETED_TASK_MAGIC) := by
  induction l with
  | nil => rfl
  | cons e rest ih =>
      by_cases h : e.unused = DELETED_TASK_MAGIC <;>
        simp [idle_cleanup, List.filter_cons, h, ih]

theorem idle_update_eq_map (hwm : Nat → Nat) (stsz : Nat)
    (l : List TaskListEntry) :
    idle_update hwm stsz l = l.map (idle_update_entry hwm stsz) := by
  induction l with
  | nil => rfl
  | cons e rest ih => simp [idle_update, ih]

theorem mem_vApplicationIdleHook (hwm : Nat → Nat) (stsz : Nat)
    (l : List TaskListEntry) (x : TaskListEntry) :
    x ∈ vApplicationIdleHook hwm stsz l ↔
      ∃ e ∈ l, e.unused ≠ DELETED_TASK_MAGIC ∧
        idle_update_entry hwm stsz e = x := by
  unfold vApplicationIdleHook
  rw [idle_update_eq_map, idle_cleanup_eq_filter]
  simp only [List.mem_map, List.mem_filter, bne_iff_ne, ne_eq]
  constructor
  · rintro ⟨e, ⟨he, hu⟩, hx⟩
    exact ⟨e, he, hu, hx⟩
  · rintro ⟨e, he, hu, hx⟩
    exact ⟨e, ⟨he, hu⟩, hx⟩

/-- C6: one health-monitor cycle removes every registry entry marked
reclaimable (NULL handle, unused set to the reclaim sentinel); every
entry not marked reclaimable survives, with its unused field refreshed to
the current stack high-water mark when its handle is live; and nothing
else appears in the registry afterwards. -/
theorem vApplicationIdleHook_reclaims (hwm : Nat → Nat) (stsz : Nat)
    (l : List TaskListEntry) :
    (∀ e ∈ l, e.task = none → e.unused = DELETED_TASK_MAGIC →
        e ∉ vApplicationIdleHook hwm stsz l) ∧
    (∀ e ∈ l, ∀ t, e.task = some t → e.unused ≠ DELETED_TASK_MAGIC →
        { e with unused := hwm t * stsz } ∈ vApplicationIdleHook hwm stsz l) ∧
    (∀ x ∈ vApplicationIdleHook hwm stsz l,
        ∃ e ∈ l, e.unused ≠ DELETED_TASK_MAGIC ∧
          ((∃ t, e.task = some t ∧ x = { e with unused := hwm t * stsz }) ∨
            (e.task = none ∧ x = e))) := by
  refine ⟨?_, ?_, ?_⟩
  · intro e he htask hmagic hmem
    obtain ⟨e', he', hu', hx⟩ := (mem_vApplicationIdleHook hwm stsz l e).1 hmem
    rcases Option.eq_none_or_eq_some e'.task with h' | ⟨t, h'⟩
    · rw [idle_update_entry_none hwm stsz e' h'] at hx
      rw [hx] at hu'
      exact hu' hmagic
    · rw [idle_update_entry_some hwm stsz e' t h'] at hx
      have ht : e.task = some t := by
        rw [← hx]
        exact h'
      rw [htask] at ht
      exact Option.noConfusion ht
  · intro e he t htask hu
    refine (mem_vApplicationIdleHook hwm stsz l _).2 ⟨e, he, hu, ?_⟩
    exact idle_update_entry_some hwm stsz e t htask
  · intro x hx
    obtain ⟨e, he, hu, hupd⟩ := (mem_vApplicationIdleHook hwm stsz l x).1 hx
    refine ⟨e, he, hu, ?_⟩
    rcases Option.eq_none_or_eq_some e.task with h' | ⟨t, h'⟩
    · rw [idle_update_entry_none hwm stsz e h'] at hupd
      exact Or.inr ⟨h', hupd.symm⟩
    · rw [idle_update_entry_some hwm stsz e t h'] at hupd
      exact Or.inl ⟨t, h', hupd.symm⟩

/-- C6 witness: a registry with one reclaimable entry and one live entry;
after one cycle the reclaimable entry is gone, the live entry remains
with its unused field refreshed, and the cycle output is characterised. -/
theorem vApplicationIdleHook_reclaims_witness :
    (⟨none, "a", DELETED_TASK_MAGIC⟩ : TaskListEntry) ∉
      vApplicationIdleHook (fun _ => 7) 4
        [⟨none, "a", DELETED_TASK_MAGIC⟩, ⟨some 1, "b", 100⟩] ∧
    (⟨some 1, "b", 28⟩ : TaskListEntry) ∈
      vApplicationIdleHook (fun _ => 7) 4
        [⟨none, "a", DELETED_TASK_MAGIC⟩, ⟨some 1, "b", 100⟩] := by
  constructor
  · exact (vApplicationIdleHook_reclaims (fun _ => 7) 4
      [⟨none, "a", DELETED_TASK_MAGIC⟩, ⟨some 1, "b", 100⟩]).1
      ⟨none, "a", DELETED_TASK_MAGIC⟩ (by simp) rfl rfl
  · exact (vApplicationIdleHook_reclaims (fun _ => 7) 4
      [⟨none, "a", DELETED_TASK_MAGIC⟩, ⟨some 1, "b", 100⟩]).2.1
      ⟨some 1, "b", 100⟩ (by simp) 1 rfl (by decide)

/-- C8: the non-scheduled main performs at most the optional platform
socket setup, then exactly one direct call into appl_main carrying main's
own argc and argv as the final step, and its exit status is exactly the
value appl_main returns. -/
theorem main_non_scheduled_direct (win32 : Bool)
    (appl_main : Int → List String → Int) (argc : Int) (argv : List String) :
    (main_non_scheduled win32 appl_main argc argv).2 = appl_main argc argv ∧
    (∃ pre, (main_non_scheduled win32 appl_main argc argv).1 =
        pre ++ [MainEvent.callAppl argc argv] ∧
        (pre = [] ∨ pre = [MainEvent.socketSetup])) ∧
    (∀ e ∈ (main_non_scheduled win32 appl_main argc argv).1,
        e = MainEvent.socketSetup ∨ e = MainEvent.callAppl argc argv) := by
  refine ⟨rfl, ⟨if win32 then [MainEvent.socketSetup] else [], rfl, ?_⟩, ?_⟩
  · cases win32
    · exact Or.inl rfl
    · exact Or.inr rfl
  · intro e he
    simp only [main_non_scheduled, List.mem_append, List.mem_cons,
      List.not_mem_nil, or_false] at he
    rcases he with he | he
    · cases win32
      · simp at he
      · simp at he
        exact Or.inl he
    · exact Or.inr he

/-- C8 witness: a concrete non-scheduled run returns the application
result 3 as its exit status, and the only events are the optional socket
setup and the single appl_main call. -/
theorem main_non_scheduled_direct_witness :
    (main_non_scheduled true (fun a _ => a + 2) 1 ["x"]).2 = 3 ∧
    (MainEvent.callAppl 1 ["x"] = MainEvent.socketSetup ∨
      MainEvent.callAppl 1 ["x"] = MainEvent.callAppl 1 ["x"]) := by
  constructor
  · have h := (main_non_scheduled_direct true (fun a _ => a + 2) 1 ["x"]).1
    simpa using h
  · exact (main_non_scheduled_direct true (fun a _ => a + 2) 1 ["x"]).2.2
      (MainEvent.callAppl 1 ["x"]) (by decide)
